import Mathlib

/-!
Verification of the tabular file ingestion and type-inference pipeline of the
analytics-dashboard repository: CSV/XLSX parsing, column type inference,
summary statistics, and the file record store (`FileService` and
`LocalLLMService.inferDataTypes` in the source).

Modelling conventions, shared by all definitions below:

* JavaScript scalar cell values are modelled by `Value`; the `Number(v)`
  coercion is modelled by `jsToNumber`, with `none` standing for `NaN`.
  String-to-number parsing (`jsNumber`) models the decimal-literal fragment
  of the `Number` builtin: surrounding whitespace, empty string coercing to
  `0`, optional sign, integer/fraction digits, optional exponent.  The
  hexadecimal/binary/octal/`Infinity` forms never occur in this development.
* `Date.parse` is implementation-defined beyond ISO 8601, so the
  classifier's `!isNaN(Date.parse(val))` test is abstracted as an explicit
  oracle parameter `isDate : Value → Bool`.
* Arithmetic is carried out in `ℚ`.  Every quantity the source compares as
  an IEEE double (counts out of a sample of at most 100, divided by the
  sample size and compared against `0.8`; field-count averages over at most
  10 preview lines compared against `1.99`) is a rational with denominator
  at most 100 whose distance from the threshold, when nonzero, is at least
  `1/500` — many orders of magnitude above double rounding error — so the
  rational comparisons used here coincide with the source's double
  comparisons.
-/

namespace FileSvc

/-- A JavaScript scalar cell value: string, finite number, boolean, `null`,
or `undefined` (`undefined` also stands for a missing object property or a
missing array element). `NaN`-valued cells do not occur in parsed tables and
are not modelled. -/
inductive Value where
  | vStr : String → Value
  | vNum : ℚ → Value
  | vBool : Bool → Value
  | vNull : Value
  | vUndefined : Value
deriving Repr, DecidableEq

/-- JavaScript truthiness of a cell value, as used by `v || d`. -/
def truthy : Value → Bool
  | .vStr s => decide (s ≠ "")
  | .vNum q => decide (q ≠ 0)
  | .vBool b => b
  | .vNull => false
  | .vUndefined => false

/-- The JavaScript `v || d` expression on cell values. -/
def jsOr (v d : Value) : Value := if truthy v then v else d

/-- Splits a leading run of decimal digits off a character list. -/
def readDigits : List Char → List Char × List Char
  | [] => ([], [])
  | c :: cs =>
    if c.isDigit then
      let p := readDigits cs
      (c :: p.1, p.2)
    else ([], c :: cs)

/-- Value of a string of decimal digits. -/
def digitsToNat (ds : List Char) : Nat :=
  ds.foldl (fun n c => 10 * n + (c.toNat - 48)) 0

/-- Parses the mantissa of a decimal numeric literal (`digits`,
`digits.digits`, `digits.`, or `.digits`), returning its value and the
unconsumed remainder. -/
def parseMantissa (cs : List Char) : Option (ℚ × List Char) :=
  let ip := readDigits cs
  match ip.2 with
  | '.' :: rest2 =>
    let fp := readDigits rest2
    if ip.1 = [] ∧ fp.1 = [] then none
    else some ((digitsToNat ip.1 : ℚ) + (digitsToNat fp.1 : ℚ) / (10 : ℚ) ^ fp.1.length, fp.2)
  | r1 =>
    if ip.1 = [] then none else some ((digitsToNat ip.1 : ℚ), r1)

/-- Parses a full run of exponent digits. -/
def parseExpDigits (ds : List Char) : Option Nat :=
  let p := readDigits ds
  if p.1 ≠ [] ∧ p.2 = [] then some (digitsToNat p.1) else none

/-- Parses an optional exponent part (`e`/`E`, optional sign, digits) that
must consume the whole remainder of the literal. -/
def parseExpPart : List Char → Option Int
  | [] => some 0
  | c :: cs =>
    if c = 'e' ∨ c = 'E' then
      match cs with
      | '+' :: ds => (parseExpDigits ds).map (fun n => (n : Int))
      | '-' :: ds => (parseExpDigits ds).map (fun n => -(n : Int))
      | ds => (parseExpDigits ds).map (fun n => (n : Int))
    else none

/-- Parses an unsigned decimal numeric literal (mantissa and optional
exponent). -/
def jsNumberCore (cs : List Char) : Option ℚ := do
  let m ← parseMantissa cs
  let e ← parseExpPart m.2
  some (m.1 * (10 : ℚ) ^ e)

/-- Whitespace as stripped by the `Number` coercion (the common ASCII
forms). -/
def isSpaceChar (c : Char) : Bool :=
  decide (c = ' ' ∨ c = '\t' ∨ c = '\n' ∨ c = '\r')

/-- Strips leading and trailing whitespace from a character list. -/
def jsTrim (cs : List Char) : List Char :=
  ((cs.dropWhile isSpaceChar).reverse.dropWhile isSpaceChar).reverse

/-- Model of the JavaScript `Number(string)` coercion on its decimal
fragment; `none` stands for `NaN`.  Whitespace is trimmed and the empty
string coerces to `0`, exactly as in JavaScript. -/
def jsNumber (s : String) : Option ℚ :=
  match jsTrim s.toList with
  | [] => some 0
  | '+' :: cs => jsNumberCore cs
  | '-' :: cs => (jsNumberCore cs).map Neg.neg
  | cs => jsNumberCore cs

/-- Model of `Number(v)` on a cell value; `none` stands for `NaN`. -/
def jsToNumber : Value → Option ℚ
  | .vStr s => jsNumber s
  | .vNum q => some q
  | .vBool b => some (if b then 1 else 0)
  | .vNull => some 0
  | .vUndefined => none

/-- A parsed data row: a JavaScript object, modelled as the ordered list of
its property assignments from column name to cell value. -/
abbrev Row := List (String × Value)

/-- JavaScript property read `row[col]`: the last assignment to the key
wins; an absent key reads as `undefined`. -/
def rowGet (r : Row) (c : String) : Value :=
  match r.reverse.find? (fun kv => kv.1 == c) with
  | some kv => kv.2
  | none => .vUndefined

/-! Type inferencer (`LocalLLMService.inferDataTypes`). -/

/-- Sample-exclusion test of `inferDataTypes`:
`val !== null && val !== undefined && val !== ''`. -/
def keepValue (v : Value) : Bool :=
  decide (v ≠ .vNull) && decide (v ≠ .vUndefined) && decide (v ≠ .vStr "")

/-- Sample of one column, `data.slice(0, 100).map(row => row[column])` with
empty/null/undefined values excluded. -/
def colSample (data : List Row) (column : String) : List Value :=
  ((data.take 100).map (fun row => rowGet row column)).filter keepValue

/-- The classifier's numeric test `!isNaN(Number(val))`. -/
def isNumericValue (v : Value) : Bool := (jsToNumber v).isSome

/-- Column classification of `LocalLLMService.inferDataTypes` for one
column.  `isDate` is the `!isNaN(Date.parse(val))` oracle.  The source
compares `count / sample.length > 0.8` as doubles; `0.8` is written `4 / 5`
here and the comparison is exact (see the module header). -/
def inferType (isDate : Value → Bool) (data : List Row) (column : String) : String :=
  let sample := colSample data column
  if sample.length = 0 then "unknown"
  else
    let numericCount := (sample.filter isNumericValue).length
    let dateCount := (sample.filter isDate).length
    if (numericCount : ℚ) / (sample.length : ℚ) > 4 / 5 then "numeric"
    else if (dateCount : ℚ) / (sample.length : ℚ) > 4 / 5 then "date"
    else "text"

/-- The full `inferDataTypes(data, columns)` map over all columns. -/
def inferDataTypes (isDate : Value → Bool) (data : List Row) (columns : List String) :
    List (String × String) :=
  columns.map (fun c => (c, inferType isDate data c))

/-- The strict `> 0.8` fraction comparison, cross-multiplied into natural
numbers. -/
theorem div_gt_four_fifths_iff (a b : Nat) (hb : 0 < b) :
    ((4 : ℚ) / 5 < (a : ℚ) / (b : ℚ)) ↔ 4 * b < 5 * a := by
  have hb' : (0 : ℚ) < (b : ℚ) := by exact_mod_cast hb
  rw [div_lt_div_iff₀ (by norm_num) hb', mul_comm (a : ℚ) 5]
  norm_cast

/-- Closed-form case analysis of `inferType`, with the fraction thresholds
cross-multiplied into natural-number comparisons. -/
theorem inferType_spec (isDate : Value → Bool) (data : List Row) (column : String) :
    inferType isDate data column =
      (if (colSample data column).length = 0 then "unknown"
       else if 4 * (colSample data column).length <
           5 * ((colSample data column).filter isNumericValue).length then "numeric"
       else if 4 * (colSample data column).length <
           5 * ((colSample data column).filter isDate).length then "date"
       else "text") := by
  unfold inferType
  by_cases h0 : (colSample data column).length = 0
  · simp [h0]
  · have hlen : 0 < (colSample data column).length := Nat.pos_of_ne_zero h0
    simp only [gt_iff_lt, div_gt_four_fifths_iff _ _ hlen]

/-! Tabular parser: CSV via Papa Parse with `header: true` and
`skipEmptyLines: true` (`FileService.parseCSV`), spreadsheets via
`XLSX.utils.sheet_to_json(sheet, { header: 1 })` (`FileService.parseXLSX`).

The CSV model starts from the lexed line/field structure: a `Line` is the
list of fields of one physical line.  Papa's text-level tokenizer is the
abstraction boundary; for input whose fields contain none of the candidate
delimiters (`, \t | ; RS US`), quotes, or line breaks, each physical line
lexes to its comma-separated fields and an empty physical line lexes to
`[""]`, and a non-comma delimiter then splits every line into a single
field, so only the comma can be auto-detected. -/

/-- One lexed CSV line: its list of fields.  An empty physical line lexes to
`[""]`. -/
abbrev Line := List String

/-- Papa's delimiter auto-detection (`guessDelimiter`), specialised to input
with plain fields (see above).  Papa parses a 10-row preview with each
candidate delimiter and accepts a candidate only when the average field
count over non-empty preview rows exceeds `1.99`; with plain fields only the
comma can reach that, so detection succeeds iff the comma's average does.
`F / R > 1.99` over doubles equals `100 * F > 199 * R` here (module
header). -/
def guessOk (lines : List Line) : Bool :=
  let pv := (lines.take 10).filter (fun l => decide (l ≠ [""]))
  100 * (pv.map List.length).sum > 199 * pv.length

/-- Rows that survive `skipEmptyLines: true`. -/
def nonEmptyLines (lines : List Line) : List Line :=
  lines.filter (fun l => decide (l ≠ [""]))

/-- With `header: true`, `results.meta.fields` is the first kept row. -/
def papaFields (lines : List Line) : Option Line :=
  (nonEmptyLines lines).head?

/-- With `header: true`, each kept data row becomes an object zipping the
header against the row's fields.  Rows whose field count mismatches the
header also produce a `FieldMismatch` error (see `papaErrors`), which makes
the caller discard the whole result, so the truncating zip is only ever
observed on matching rows. -/
def papaRecords (lines : List Line) : List Row :=
  match nonEmptyLines lines with
  | [] => []
  | hdr :: rest => rest.map (fun l => (hdr.zip l).map (fun hv => (hv.1, Value.vStr hv.2)))

/-- Parse-level error kinds surfaced through `results.errors` (CSV) or a
rejected promise (XLSX).  The source carries them as message strings; the
kind is what its callers branch on (they only test for a non-empty error
list), so messages are not re-modelled. -/
inductive ParseErr where
  | undetectableDelimiter
  | fieldMismatch
  | emptyExcel
  | xlsxReadFailure
deriving Repr, DecidableEq

/-- The `results.errors` array: the delimiter-detection error is recorded
before any row-level `FieldMismatch` error (one per kept data row whose
field count differs from the header's). -/
def papaErrors (lines : List Line) : List ParseErr :=
  (if guessOk lines then [] else [ParseErr.undetectableDelimiter]) ++
    (match nonEmptyLines lines with
     | [] => []
     | hdr :: rest =>
       rest.filterMap (fun l =>
         if l.length = hdr.length then none else some ParseErr.fieldMismatch))

/-- The `ParsedData` result of both parsers. -/
structure ParsedData where
  data : List Row
  columns : List String
  rowCount : Nat
  preview : List Row
deriving Repr, DecidableEq

deriving instance DecidableEq for Except

/-- Model of `FileService.parseCSV`: reject when `results.errors` is
non-empty (surfacing `errors[0]`), otherwise package `results.data`,
`results.meta.fields || []`, the row count, and the 10-row preview. -/
def parseCSV (lines : List Line) : Except ParseErr ParsedData :=
  match (papaErrors lines).head? with
  | some e => Except.error e
  | none =>
    Except.ok
      { data := papaRecords lines
        columns := (papaFields lines).getD []
        rowCount := (papaRecords lines).length
        preview := (papaRecords lines).take 10 }

/-- JavaScript string coercion, used for object property keys
(`obj[header]`) and `String(value)`.  Number formatting is only exercised on
values that occur in this development. -/
def valueToKey : Value → String
  | .vStr s => s
  | .vNum q => toString q
  | .vBool b => if b then "true" else "false"
  | .vNull => "null"
  | .vUndefined => "undefined"

/-- The body of `headers.forEach((header, index) => obj[header] =
row[index] || '')`, carrying the running index: position `index` of the row
(`undefined` past its end) is taken when truthy and replaced by `''`
otherwise. -/
def xlsxRecordAux (row : List Value) : Nat → List String → Row
  | _, [] => []
  | i, h :: hs => (h, jsOr (row.getD i Value.vUndefined) (Value.vStr "")) :: xlsxRecordAux row (i + 1) hs

/-- One spreadsheet data row zipped positionally against the header row. -/
def xlsxRecord (headers : List String) (row : List Value) : Row :=
  xlsxRecordAux row 0 headers

/-- Model of `FileService.parseXLSX` on the first sheet's
`sheet_to_json(…, { header: 1 })` row-of-arrays view: an absent first sheet
makes the conversion throw (caught and rejected), a sheet with zero rows is
rejected as empty, and otherwise the first row is the header and the rest
are zipped into records.  All sheets except the first are ignored by
construction. -/
def parseXLSX (wb : List (List (List Value))) : Except ParseErr ParsedData :=
  match wb with
  | [] => Except.error ParseErr.xlsxReadFailure
  | sheet :: _ =>
    match sheet with
    | [] => Except.error ParseErr.emptyExcel
    | headerRow :: rows =>
      let headers := headerRow.map valueToKey
      let processedData := rows.map (fun row => xlsxRecord headers row)
      Except.ok
        { data := processedData
          columns := headers
          rowCount := processedData.length
          preview := processedData.take 10 }

/-! File record store (`FileService`): the `files: Map<string, FileData>`
plus its localStorage mirror.  A JavaScript `Map` is modelled as its
insertion-ordered entry list with unique keys: `set` of a present key
replaces in place, otherwise appends; iteration follows that order.
`localStorage` is modelled as the `persisted` component; `saveFilesToStorage`
copies the live entries into it. -/

/-- The `'csv' | 'xlsx'` union of `FileData.type`. -/
inductive FType where
  | csv
  | xlsx
deriving Repr, DecidableEq

/-- The stored `FileData` record.  `uploadedAt` is stored by the source as
`new Date().toISOString()` and always consumed through
`new Date(s).getTime()`; since valid ISO strings round-trip through that
pair, the embedding carries the epoch-millisecond value directly. -/
structure FileData where
  id : String
  name : String
  type : FType
  size : Nat
  uploadedAt : Nat
  data : List Row
  columns : List String
  rowCount : Nat
  preview : List Row
deriving Repr, DecidableEq

/-- Payload of an uploaded `File`: CSV text (lexed lines) or a spreadsheet
workbook (sheets of rows of cells).  A file whose extension disagrees with
its payload kind fails to parse; that failure kind abstracts the underlying
parser choking on the foreign byte stream. -/
inductive FileContent where
  | csvLines : List Line → FileContent
  | workbook : List (List (List Value)) → FileContent
deriving Repr, DecidableEq

/-- An uploaded `File` as the service consumes it: name, byte size,
payload. -/
structure UFile where
  name : String
  size : Nat
  content : FileContent
deriving Repr, DecidableEq

/-- Store state: the in-memory `Map` entries plus the persisted
serialization. -/
structure Store where
  records : List (String × FileData)
  persisted : List (String × FileData)
deriving Repr, DecidableEq

/-- `Map.get`: the value at a key, if present. -/
def mapGet (l : List (String × FileData)) (k : String) : Option FileData :=
  match l with
  | [] => none
  | p :: ps => if p.1 == k then some p.2 else mapGet ps k

/-- `Map.set`: replace in place when the key is present, append
otherwise. -/
def mapSet (l : List (String × FileData)) (k : String) (v : FileData) :
    List (String × FileData) :=
  match l with
  | [] => [(k, v)]
  | p :: ps => if p.1 == k then (k, v) :: ps else p :: mapSet ps k v

/-- `saveFilesToStorage()`: serialize the live entries. -/
def saveStore (st : Store) : Store := { st with persisted := st.records }

/-- The `split('.')` of `getFileType`, at the character level. -/
def splitOnDot : List Char → List (List Char)
  | [] => [[]]
  | c :: cs =>
    match splitOnDot cs with
    | [] => [[]]
    | seg :: rest => if c = '.' then [] :: seg :: rest else (c :: seg) :: rest

/-- `getFileType(filename)`: lower-case the name, split on `.`, take the
last segment (`split` never yields an empty array, so `pop()` is the last
segment). -/
def getFileType (filename : String) : Option FType :=
  let ext := (splitOnDot (filename.toList.map Char.toLower)).getLast?.getD []
  if ext = "csv".toList then some FType.csv
  else if ext = "xlsx".toList then some FType.xlsx
  else if ext = "xls".toList then some FType.xlsx
  else none

/-- Dispatch of `uploadFile`'s `switch (fileType)` to the matching
parser. -/
def parseByType : FType → FileContent → Except ParseErr ParsedData
  | FType.csv, FileContent.csvLines ls => parseCSV ls
  | FType.xlsx, FileContent.workbook wb => parseXLSX wb
  | FType.csv, FileContent.workbook _ => Except.error ParseErr.undetectableDelimiter
  | FType.xlsx, FileContent.csvLines _ => Except.error ParseErr.xlsxReadFailure

/-- Failure kinds of `uploadFile`: the pre-parse extension rejection, or a
wrapped parser failure (`Failed to process file: …`). -/
inductive UploadErr where
  | unsupportedFileType
  | processFailed : ParseErr → UploadErr
deriving Repr, DecidableEq

/-- Model of `FileService.uploadFile`.  `newId` stands for the
`generateId()` output and `now` for `new Date()` at the call; both are
nondeterministic inputs of the source, so the embedding takes them as
parameters.  On success the record is built, inserted and persisted; every
failure path returns before the store is touched. -/
def uploadFile (newId : String) (now : Nat) (f : UFile) (st : Store) :
    Except UploadErr FileData × Store :=
  match getFileType f.name with
  | none => (Except.error UploadErr.unsupportedFileType, st)
  | some ft =>
    match parseByType ft f.content with
    | Except.error e => (Except.error (UploadErr.processFailed e), st)
    | Except.ok pd =>
      let fd : FileData :=
        { id := newId
          name := f.name
          type := ft
          size := f.size
          uploadedAt := now
          data := pd.data
          columns := pd.columns
          rowCount := pd.rowCount
          preview := pd.preview }
      (Except.ok fd, saveStore { st with records := mapSet st.records newId fd })

/-- The ordering of `getFiles()`'s comparator
`(a, b) => time(b) - time(a)`: `a` precedes `b` when `b` is not newer. -/
def fileOrd (a b : FileData) : Prop := b.uploadedAt ≤ a.uploadedAt

instance : DecidableRel fileOrd :=
  fun a b => inferInstanceAs (Decidable (b.uploadedAt ≤ a.uploadedAt))

instance : IsTotal FileData fileOrd :=
  ⟨fun a b => Nat.le_total b.uploadedAt a.uploadedAt⟩

instance : IsTrans FileData fileOrd :=
  ⟨fun _ _ _ h1 h2 => Nat.le_trans h2 h1⟩

/-- Model of `FileService.getFiles()`: the `Map` values in insertion order,
sorted newest-first.  `Array.prototype.sort` is stable (ECMAScript 2019),
and any stable sort for `fileOrd` computes the same list, so the stable
`List.insertionSort` stands in for it. -/
def getFiles (st : Store) : List FileData :=
  List.insertionSort fileOrd (st.records.map Prod.snd)

/-- Model of `FileService.getFile(id)` (the source returns `null` for a
miss). -/
def getFile (st : Store) (id : String) : Option FileData :=
  mapGet st.records id

/-- Model of `FileService.deleteFile(id)`: remove the entry and persist
only when something was removed. -/
def deleteFile (id : String) (st : Store) : Bool × Store :=
  if st.records.any (fun p => p.1 == id) then
    (true, saveStore { st with records := st.records.filter (fun p => !(p.1 == id)) })
  else
    (false, st)

/-- Case-insensitive substring test `s.toLowerCase().includes(q)` with `q`
already lower-cased. -/
def strIncludes (s q : String) : Bool :=
  decide (q.toList <:+: s.toList)

/-- One row's test in `searchInFile`: some field value's string form
contains the lower-cased query. -/
def rowMatches (query : String) (r : Row) : Bool :=
  r.any (fun kv => strIncludes (valueToKey kv.2).toLower query.toLower)

/-- Model of `FileService.searchInFile`: empty for an unknown id, otherwise
the rows whose values match, in original order. -/
def searchInFile (st : Store) (fileId query : String) : List Row :=
  match mapGet st.records fileId with
  | none => []
  | some f => f.data.filter (rowMatches query)

/-! Summary statistics (`FileService.getFileStats`) and the dashboard's
numeric-eligibility check (`DashboardRenderer` in `AnalyticsPreview.tsx`).
The display-only string fields of the stats object (`fileSize` via
`formatFileSize`, the locale-formatted `uploadedAt`) are presentation
formatting and are not part of the model. -/

/-- The per-column numeric test of `getFileStats`: every value in the
100-row sample satisfies `!isNaN(Number(row[col])) && row[col] !== ''`. -/
def statNumericCheck (f : FileData) (col : String) : Bool :=
  (f.data.take 100).all
    (fun row => (jsToNumber (rowGet row col)).isSome && decide (rowGet row col ≠ Value.vStr ""))

/-- The `numericColumns` list of `getFileStats`, in column order. -/
def statNumericColumns (f : FileData) : List String :=
  f.columns.filter (fun col => statNumericCheck f col)

/-- All values of a column over the entire table, coerced by `Number` with
the `NaN` results dropped
(`file.data.map(row => Number(row[col])).filter(val => !isNaN(val))`). -/
def parsedColumnValues (f : FileData) (col : String) : List ℚ :=
  f.data.filterMap (fun row => jsToNumber (rowGet row col))

/-- JavaScript `values.reduce((a, b) => a + b, 0)`. -/
def jsSum (l : List ℚ) : ℚ := l.foldl (· + ·) 0

/-- Binary step of `Math.min` (exact on the rationals occurring here). -/
def jsMin (a b : ℚ) : ℚ := if a ≤ b then a else b

/-- Binary step of `Math.max`. -/
def jsMax (a b : ℚ) : ℚ := if a ≤ b then b else a

/-- The `sampleStats` block of `getFileStats`. -/
structure SampleStats where
  column : String
  min : ℚ
  max : ℚ
  avg : ℚ
  count : Nat
deriving Repr, DecidableEq

/-- The stats object of `getFileStats` (without the display-only string
fields, see above). -/
structure FileStats where
  totalRows : Nat
  totalColumns : Nat
  numericColumns : Nat
  textColumns : Nat
  sampleStats : Option SampleStats
deriving Repr, DecidableEq

/-- The `sampleStats` computation: only the first numeric column gets a
block, and only when it has at least one parseable value
(`if (values.length > 0)`); `Math.min`/`Math.max` of a non-empty spread are
folds from its first element. -/
def statSample (f : FileData) : Option SampleStats :=
  match statNumericColumns f with
  | [] => none
  | c :: _ =>
    match parsedColumnValues f c with
    | [] => none
    | v :: vs =>
      some
        { column := c
          min := vs.foldl jsMin v
          max := vs.foldl jsMax v
          avg := jsSum (v :: vs) / (((v :: vs).length : ℚ))
          count := (v :: vs).length }

/-- Model of `FileService.getFileStats` (`null` for an unknown id). -/
def getFileStats (st : Store) (fileId : String) : Option FileStats :=
  match mapGet st.records fileId with
  | none => none
  | some f =>
    some
      { totalRows := f.rowCount
        totalColumns := f.columns.length
        numericColumns := (statNumericColumns f).length
        textColumns := f.columns.length - (statNumericColumns f).length
        sampleStats := statSample f }

/-- The dashboard's numeric-eligibility check (`DashboardRenderer`):
`data.slice(0, 50).some(row => !isNaN(Number(row[col])) && row[col] !==
'')`. -/
def dashNumericEligible (data : List Row) (col : String) : Bool :=
  (data.take 50).any
    (fun row => (jsToNumber (rowGet row col)).isSome && decide (rowGet row col ≠ Value.vStr ""))

/-! Shared helper lemmas about the store primitives and the parsers. -/

/-- Reading back the key just written by `mapSet`. -/
theorem mapGet_mapSet_self (l : List (String × FileData)) (k : String) (v : FileData) :
    mapGet (mapSet l k v) k = some v := by
  induction l with
  | nil => simp [mapSet, mapGet]
  | cons p ps ih =>
    by_cases h : p.1 = k
    · simp [mapSet, mapGet, h]
    · simp only [mapSet, mapGet, beq_iff_eq, h, if_false]
      exact ih

/-- Every entry after `mapSet` is an old entry or the written one. -/
theorem mem_mapSet (l : List (String × FileData)) (k : String) (v : FileData)
    (p : String × FileData) (hp : p ∈ mapSet l k v) : p ∈ l ∨ p = (k, v) := by
  induction l with
  | nil => simpa [mapSet] using hp
  | cons q qs ih =>
    by_cases h : q.1 = k
    · simp only [mapSet, beq_iff_eq, h, if_true] at hp
      rcases List.mem_cons.mp hp with h1 | h1
      · exact Or.inr h1
      · exact Or.inl (List.mem_cons_of_mem _ h1)
    · simp only [mapSet, beq_iff_eq, h, if_false] at hp
      rcases List.mem_cons.mp hp with h1 | h1
      · exact Or.inl (h1 ▸ List.mem_cons_self _ _)
      · rcases ih h1 with h2 | h2
        · exact Or.inl (List.mem_cons_of_mem _ h2)
        · exact Or.inr h2

/-- A successful `mapGet` hit is one of the entries. -/
theorem mem_of_mapGet (l : List (String × FileData)) (k : String) (v : FileData)
    (h : mapGet l k = some v) : (k, v) ∈ l := by
  induction l with
  | nil => simp [mapGet] at h
  | cons p ps ih =>
    by_cases hk : p.1 = k
    · simp only [mapGet, beq_iff_eq, hk, if_true, Option.some.injEq] at h
      subst h
      subst hk
      exact List.mem_cons_self _ _
    · simp only [mapGet, beq_iff_eq, hk, if_false] at h
      exact List.mem_cons_of_mem _ (ih h)

/-- Both parsers establish the record bookkeeping invariant: the stored row
count is the data length and the preview is the 10-row prefix. -/
theorem parseByType_ok_invariant (ft : FType) (c : FileContent) (pd : ParsedData)
    (h : parseByType ft c = Except.ok pd) :
    pd.rowCount = pd.data.length ∧ pd.preview = pd.data.take 10 := by
  cases ft <;> cases c <;> simp only [parseByType] at h
  case csv.workbook wb => exact Except.noConfusion h
  case xlsx.csvLines ls => exact Except.noConfusion h
  case csv.csvLines ls =>
    unfold parseCSV at h
    rcases he : (papaErrors ls).head? with _ | e
    · rw [he] at h
      simp only [Except.ok.injEq] at h
      subst h
      exact ⟨rfl, rfl⟩
    · rw [he] at h
      simp at h
  case xlsx.workbook wb =>
    match wb with
    | [] => simp [parseXLSX] at h
    | [] :: _ => simp [parseXLSX] at h
    | (headerRow :: rows) :: _ =>
      simp only [parseXLSX, Except.ok.injEq] at h
      subst h
      exact ⟨rfl, rfl⟩

/-- The per-timestamp subsequence is untouched by one ordered insertion:
every element skipped over by `orderedInsert` under `fileOrd` is strictly
newer than the inserted one, hence has a different timestamp. -/
theorem filter_time_orderedInsert (t : Nat) (x : FileData) (l : List FileData) :
    (List.orderedInsert fileOrd x l).filter (fun f => decide (f.uploadedAt = t)) =
      if x.uploadedAt = t
      then x :: l.filter (fun f => decide (f.uploadedAt = t))
      else l.filter (fun f => decide (f.uploadedAt = t)) := by
  induction l with
  | nil =>
    by_cases h : x.uploadedAt = t <;> simp [List.orderedInsert, List.filter, h]
  | cons y ys ih =>
    by_cases hr : fileOrd x y
    · rw [List.orderedInsert, if_pos hr]
      by_cases hx : x.uploadedAt = t <;> simp [List.filter_cons, hx]
    · rw [List.orderedInsert, if_neg hr]
      by_cases hx : x.uploadedAt = t
      · have hy : ¬ y.uploadedAt = t := by
          have hlt : x.uploadedAt < y.uploadedAt := Nat.lt_of_not_le hr
          omega
        simp [List.filter_cons, hx, hy, ih]
      · simp [List.filter_cons, hx, ih]

/-- Stability of `getFiles`'s sort: the subsequence of records carrying any
fixed timestamp is exactly as in the input (insertion) order. -/
theorem filter_time_insertionSort (t : Nat) (l : List FileData) :
    (List.insertionSort fileOrd l).filter (fun f => decide (f.uploadedAt = t)) =
      l.filter (fun f => decide (f.uploadedAt = t)) := by
  induction l with
  | nil => rfl
  | cons x xs ih =>
    rw [List.insertionSort, filter_time_orderedInsert]
    by_cases hx : x.uploadedAt = t <;> simp [List.filter_cons, hx, ih]

/-- Bookkeeping invariant of one stored record: the row count is the data
length and the preview is the 10-row prefix of the data. -/
def recordOk (fd : FileData) : Prop :=
  fd.rowCount = fd.data.length ∧ fd.preview = fd.data.take 10

/-- All records of a store satisfy the bookkeeping invariant. -/
def storeOk (st : Store) : Prop :=
  ∀ p ∈ st.records, recordOk p.2

/-! Claim theorems. -/

/-- The C1 boundary example: a column `c` whose values are
`["1","2","abc","4","5"]`. -/
def c1Data : List Row :=
  [[("c", Value.vStr "1")], [("c", Value.vStr "2")], [("c", Value.vStr "abc")],
   [("c", Value.vStr "4")], [("c", Value.vStr "5")]]

/-- C1: for every table and column, `inferDataTypes` classifies by the
ordered rule over the sample of up to the first 100 rows with
empty/null/undefined values excluded — empty sample gives `unknown`, then
numeric fraction strictly above `0.8` (here cross-multiplied: `4·len <
5·count`) gives `numeric`, then date fraction strictly above `0.8` gives
`date`, else `text`; and the boundary column `["1","2","abc","4","5"]`
(numeric fraction exactly 4/5) is classified `text` for any `Date.parse`
oracle that rejects `"abc"`. -/
theorem c1_inferType_rule (isDate : Value → Bool)
    (habc : isDate (Value.vStr "abc") = false) :
    (∀ data column,
      inferType isDate data column =
        (if (colSample data column).length = 0 then "unknown"
         else if 4 * (colSample data column).length <
             5 * ((colSample data column).filter isNumericValue).length then "numeric"
         else if 4 * (colSample data column).length <
             5 * ((colSample data column).filter isDate).length then "date"
         else "text")) ∧
    inferType isDate c1Data "c" = "text" := by
  refine ⟨fun data column => inferType_spec isDate data column, ?_⟩
  have hs : colSample c1Data "c" =
      [Value.vStr "1", Value.vStr "2", Value.vStr "abc", Value.vStr "4", Value.vStr "5"] := by
    decide
  have hnum : ((colSample c1Data "c").filter isNumericValue).length = 4 := by decide
  have hdate : ((colSample c1Data "c").filter isDate).length ≤ 4 := by
    rw [hs]
    cases h1 : isDate (Value.vStr "1") <;> cases h2 : isDate (Value.vStr "2") <;>
      cases h4 : isDate (Value.vStr "4") <;> cases h5 : isDate (Value.vStr "5") <;>
        simp [List.filter_cons, h1, h2, h4, h5, habc]
  have hlen : (colSample c1Data "c").length = 5 := by decide
  rw [inferType_spec]
  simp only [hlen, hnum]
  norm_num
  intro h
  exact absurd h (by omega)

/-- C1 witness: the all-rejecting date oracle satisfies the hypothesis and
the boundary column evaluates to `text`. -/
theorem c1_witness :
    (fun _ => false : Value → Bool) (Value.vStr "abc") = false ∧
    inferType (fun _ => false) c1Data "c" = "text" :=
  ⟨rfl, (c1_inferType_rule (fun _ => false) rfl).2⟩

/-- C2 counterexample: `"h\n1\n2"` is a valid CSV with header field `h` and
two data lines, but Papa's delimiter auto-detection fails on single-column
input (average field count `1 ≤ 1.99`), the resulting
`UndetectableDelimiter` entry makes `results.errors` non-empty, and
`parseCSV` rejects instead of yielding a table. -/
theorem c2_counterexample :
    parseCSV [["h"], ["1"], ["2"]] = Except.error ParseErr.undetectableDelimiter := rfl

/-- C2 amended: for a valid CSV whose header line (distinct fields, not the
empty line) is followed by data lines of matching field count, *and whose
delimiter auto-detection succeeds* (average field count of the first 10
non-empty lines above `1.99`, which in particular needs at least two
columns), parsing yields the header as `columns` and one row per non-empty
data line, with `rowCount` equal to that length. -/
theorem c2_parseCSV_header_rows (hdr : Line) (rest : List Line)
    (hhdr : hdr ≠ [""]) (_hnodup : hdr.Nodup)
    (hrect : ∀ l ∈ rest, l ≠ [""] → l.length = hdr.length)
    (hdelim : guessOk (hdr :: rest) = true) :
    ∃ pd, parseCSV (hdr :: rest) = Except.ok pd ∧
      pd.columns = hdr ∧
      pd.data.length = (rest.filter (fun l => decide (l ≠ [""]))).length ∧
      pd.rowCount = pd.data.length := by
  have hne : nonEmptyLines (hdr :: rest) = hdr :: rest.filter (fun l => decide (l ≠ [""])) := by
    simp only [nonEmptyLines, List.filter_cons, decide_eq_true_eq]
    rw [if_pos hhdr]
  have herr : papaErrors (hdr :: rest) = [] := by
    unfold papaErrors
    rw [hne, hdelim]
    simp only [if_true, List.nil_append]
    rw [List.filterMap_eq_nil_iff]
    intro l hl
    rcases List.mem_filter.mp hl with ⟨hmem, hpred⟩
    rw [if_pos (hrect l hmem (of_decide_eq_true hpred))]
  have hrec : papaRecords (hdr :: rest) =
      (rest.filter (fun l => decide (l ≠ [""]))).map
        (fun l => (hdr.zip l).map (fun hv => (hv.1, Value.vStr hv.2))) := by
    unfold papaRecords
    rw [hne]
  have hf : papaFields (hdr :: rest) = some hdr := by
    unfold papaFields
    rw [hne]
    rfl
  have hparse : parseCSV (hdr :: rest) = Except.ok
      { data := papaRecords (hdr :: rest)
        columns := (papaFields (hdr :: rest)).getD []
        rowCount := (papaRecords (hdr :: rest)).length
        preview := (papaRecords (hdr :: rest)).take 10 } := by
    unfold parseCSV
    rw [herr]
    rfl
  refine ⟨_, hparse, ?_, ?_, rfl⟩
  · show (papaFields (hdr :: rest)).getD [] = hdr
    rw [hf]
    rfl
  · show (papaRecords (hdr :: rest)).length = _
    rw [hrec, List.length_map]

/-- C2 witness: a two-column CSV with two data rows parses to
`columns = [a, b]` and two rows. -/
theorem c2_witness :
    (["a", "b"] : Line) ≠ [""] ∧
    ∃ pd, parseCSV [["a", "b"], ["1", "2"], ["3", "4"]] = Except.ok pd ∧
      pd.columns = ["a", "b"] ∧ pd.data.length = 2 ∧ pd.rowCount = pd.data.length := by
  refine ⟨by decide, ?_⟩
  obtain ⟨pd, h1, h2, h3, h4⟩ :=
    c2_parseCSV_header_rows ["a", "b"] [["1", "2"], ["3", "4"]]
      (by decide) (by decide) (by decide) (by decide)
  refine ⟨pd, h1, h2, ?_, h4⟩
  rw [h3]
  rfl

/-- The header-only upload of the C3 counterexample: `t.csv` containing the
single line `a,b`. -/
def c3File : UFile :=
  { name := "t.csv", size := 9, content := FileContent.csvLines [["a", "b"]] }

/-- The record the C3 counterexample upload produces. -/
def c3Record : FileData :=
  { id := "id1", name := "t.csv", type := FType.csv, size := 9, uploadedAt := 5,
    data := [], columns := ["a", "b"], rowCount := 0, preview := [] }

/-- C3 counterexample: uploading a CSV with a header row (`a,b`) and no
data rows does not fail at all — there is no `EmptyDocument` check anywhere
in `uploadFile`/`parseCSV` — it succeeds with a zero-row `FileData` that is
inserted into the store. -/
theorem c3_counterexample :
    (uploadFile "id1" 5 c3File { records := [], persisted := [] }).1 = Except.ok c3Record ∧
    (uploadFile "id1" 5 c3File { records := [], persisted := [] }).2.records =
      [("id1", c3Record)] :=
  ⟨rfl, rfl⟩

/-- C3 amended: uploading a header-only CSV (provided its delimiter is
auto-detectable, e.g. at least two columns) succeeds, producing a
`FileRecord` with `rowCount = 0`, empty data and preview, which is inserted
into the store and persisted — not an `EmptyDocument` failure. -/
theorem c3_header_only_upload (newId : String) (now : Nat) (name : String) (size : Nat)
    (hdr : Line) (st : Store)
    (hcsv : getFileType name = some FType.csv)
    (hne : hdr ≠ [""])
    (hguess : guessOk [hdr] = true) :
    ∃ fd st2,
      uploadFile newId now { name := name, size := size, content := FileContent.csvLines [hdr] } st
        = (Except.ok fd, st2) ∧
      fd.rowCount = 0 ∧ fd.data = [] ∧ fd.preview = [] ∧ fd.columns = hdr ∧
      mapGet st2.records newId = some fd ∧ st2.persisted = st2.records := by
  have hne2 : nonEmptyLines [hdr] = [hdr] := by
    simp only [nonEmptyLines, List.filter_cons, decide_eq_true_eq]
    rw [if_pos hne]
    rfl
  have herr : papaErrors [hdr] = [] := by
    unfold papaErrors
    rw [hne2, hguess]
    rfl
  have hparse : parseCSV [hdr] =
      Except.ok { data := [], columns := hdr, rowCount := 0, preview := [] } := by
    have hrec : papaRecords [hdr] = [] := by
      unfold papaRecords
      rw [hne2]
      rfl
    have hf : papaFields [hdr] = some hdr := by
      unfold papaFields
      rw [hne2]
      rfl
    unfold parseCSV
    rw [herr]
    simp [hrec, hf]
  refine ⟨⟨newId, name, FType.csv, size, now, [], hdr, 0, []⟩,
          saveStore ⟨mapSet st.records newId ⟨newId, name, FType.csv, size, now, [], hdr, 0, []⟩,
            st.persisted⟩,
          ?_, rfl, rfl, rfl, rfl, ?_, rfl⟩
  · simp only [uploadFile, hcsv, parseByType, hparse]
  · exact mapGet_mapSet_self st.records newId _

/-- C3 witness: a concrete header-only upload into a non-empty store. -/
theorem c3_witness :
    getFileType "data.csv" = some FType.csv ∧ (["x", "y"] : Line) ≠ [""] ∧
    ∃ fd st2,
      uploadFile "id9" 7 { name := "data.csv", size := 3, content := FileContent.csvLines [["x", "y"]] }
          { records := [("id1", c3Record)], persisted := [("id1", c3Record)] }
        = (Except.ok fd, st2) ∧
      fd.rowCount = 0 ∧ fd.data = [] ∧ fd.preview = [] ∧ fd.columns = ["x", "y"] ∧
      mapGet st2.records "id9" = some fd ∧ st2.persisted = st2.records :=
  ⟨rfl, by decide,
    c3_header_only_upload "id9" 7 "data.csv" 3 ["x", "y"]
      { records := [("id1", c3Record)], persisted := [("id1", c3Record)] }
      rfl (by decide) rfl⟩

/-- Unfolding `getFileStats` on a present id. -/
theorem getFileStats_eq (st : Store) (id : String) (f : FileData)
    (hf : mapGet st.records id = some f) :
    getFileStats st id = some ⟨f.rowCount, f.columns.length, (statNumericColumns f).length,
      f.columns.length - (statNumericColumns f).length, statSample f⟩ := by
  unfold getFileStats
  rw [hf]

/-- The `sampleStats` block is omitted when the first numeric column has no
parseable value. -/
theorem statSample_eq_none (f : FileData) (c : String) (cs : List String)
    (hcols : statNumericColumns f = c :: cs) (hvals : parsedColumnValues f c = []) :
    statSample f = none := by
  unfold statSample
  simp only [hcols, hvals]

/-- The `sampleStats` block over a non-empty parsed-value list. -/
theorem statSample_eq_some (f : FileData) (c : String) (cs : List String) (v : ℚ) (vs : List ℚ)
    (hcols : statNumericColumns f = c :: cs) (hvals : parsedColumnValues f c = v :: vs) :
    statSample f = some ⟨c, vs.foldl jsMin v, vs.foldl jsMax v,
      jsSum (v :: vs) / (((v :: vs).length : ℚ)), (v :: vs).length⟩ := by
  unfold statSample
  simp only [hcols, hvals]

/-- C4: whenever `getFileStats` reports a statistics block for a (numeric)
column, its `avg` is the sum of the column's successfully parsed values
over the whole column divided by their count (non-parseable values are
skipped by the `filterMap`, not coerced to zero), the count is positive;
and when the first numeric column has zero parseable values the block is
omitted (`sampleStats = none`) instead of holding a `NaN`. -/
theorem c4_numeric_average :
    (∀ st id stats f s,
        getFileStats st id = some stats →
        mapGet st.records id = some f →
        stats.sampleStats = some s →
        s.column ∈ statNumericColumns f ∧
        s.count = (parsedColumnValues f s.column).length ∧
        0 < s.count ∧
        s.avg = jsSum (parsedColumnValues f s.column) / (s.count : ℚ)) ∧
    (∀ st id stats f c cs,
        getFileStats st id = some stats →
        mapGet st.records id = some f →
        statNumericColumns f = c :: cs →
        parsedColumnValues f c = [] →
        stats.sampleStats = none) := by
  constructor
  · intro st id stats f s hstats hf hs
    have h12 := (getFileStats_eq st id f hf).symm.trans hstats
    rw [Option.some_inj] at h12
    have hss : statSample f = some s := by
      rw [← h12] at hs
      exact hs
    rcases hcols : statNumericColumns f with _ | ⟨c, cs⟩
    · have hnone : statSample f = none := by
        unfold statSample
        simp only [hcols]
      rw [hnone] at hss
      exact Option.noConfusion hss
    · rcases hvals : parsedColumnValues f c with _ | ⟨v, vs⟩
      · rw [statSample_eq_none f c cs hcols hvals] at hss
        exact Option.noConfusion hss
      · rw [statSample_eq_some f c cs v vs hcols hvals, Option.some_inj] at hss
        subst hss
        refine ⟨?_, ?_, Nat.succ_pos _, ?_⟩
        · exact List.mem_cons_self _ _
        · show (v :: vs).length = (parsedColumnValues f c).length
          rw [hvals]
        · show jsSum (v :: vs) / (((v :: vs).length : ℚ)) =
            jsSum (parsedColumnValues f c) / (((v :: vs).length : ℚ))
          rw [hvals]
  · intro st id stats f c cs hstats hf hcols hvals
    have h12 := (getFileStats_eq st id f hf).symm.trans hstats
    rw [Option.some_inj] at h12
    rw [← h12]
    show statSample f = none
    exact statSample_eq_none f c cs hcols hvals

/-- Scenario-A-style record for the C4 witness: columns `name,value` with
rows `(a,1)`, `(b,2)`, `(c,3)`. -/
def c4Record : FileData :=
  { id := "f1", name := "s.csv", type := FType.csv, size := 20, uploadedAt := 1,
    data := [[("name", Value.vStr "a"), ("value", Value.vStr "1")],
             [("name", Value.vStr "b"), ("value", Value.vStr "2")],
             [("name", Value.vStr "c"), ("value", Value.vStr "3")]],
    columns := ["name", "value"], rowCount := 3,
    preview := [[("name", Value.vStr "a"), ("value", Value.vStr "1")],
                [("name", Value.vStr "b"), ("value", Value.vStr "2")],
                [("name", Value.vStr "c"), ("value", Value.vStr "3")]] }

/-- Store holding the C4 witness record. -/
def c4Store : Store := { records := [("f1", c4Record)], persisted := [("f1", c4Record)] }

/-- Store holding a zero-row record (every column vacuously numeric, no
parseable values) for the omission half of the C4 witness. -/
def c4StoreZero : Store := { records := [("g", c3Record)], persisted := [] }

/-- C4 witness: on the Scenario A table the reported average for `value` is
`2 = (1+2+3)/3` with count `3`, and on a zero-row table the statistics
block is omitted. -/
theorem c4_witness :
    (("value" : String) ∈ statNumericColumns c4Record ∧
      3 = (parsedColumnValues c4Record "value").length ∧
      0 < 3 ∧
      (2 : ℚ) = jsSum (parsedColumnValues c4Record "value") / ((3 : Nat) : ℚ)) ∧
    (⟨0, 2, 2, 0, none⟩ : FileStats).sampleStats = none := by
  constructor
  · exact c4_numeric_average.1 c4Store "f1" ⟨3, 2, 1, 1, some ⟨"value", 1, 3, 2, 3⟩⟩
      c4Record ⟨"value", 1, 3, 2, 3⟩ (by with_unfolding_all rfl) (by with_unfolding_all rfl)
      (by with_unfolding_all rfl)
  · exact c4_numeric_average.2 c4StoreZero "g" ⟨0, 2, 2, 0, none⟩ c3Record "a" ["b"]
      (by with_unfolding_all rfl) (by with_unfolding_all rfl) (by with_unfolding_all rfl)
      (by with_unfolding_all rfl)

/-- Two-row column for the C5 counterexample: values `["1", "abc"]`. -/
def c5Data : List Row := [[("c", Value.vStr "1")], [("c", Value.vStr "abc")]]

/-- Date oracle for the C5 counterexample, consistent with V8's
`Date.parse` on the two values involved: `"1"` parses as a date, `"abc"`
does not. -/
def c5Oracle : Value → Bool := fun v => decide (v = Value.vStr "1")

/-- C5 counterexample: the call sites do not share one algorithm.  On a
2-row table (samples trivially coincide), the dashboard eligibility check
accepts column `c` (it only asks for *some* value that parses), while the
classifier returns `text` (numeric fraction 1/2 does not exceed 0.8) — so
the claimed equivalence fails. -/
theorem c5_counterexample :
    ¬ (dashNumericEligible c5Data "c" = true ↔ inferType c5Oracle c5Data "c" = "numeric") ∧
      c5Data.length ≤ 50 :=
  of_decide_eq_true (by with_unfolding_all rfl)

/-- C5 amended: the three numeric tests differ, but one direction does
hold — on a table of at most 50 rows (where the 50-row and 100-row samples
are both the whole table), a column the classifier marks `numeric` is
always accepted by the dashboard's 50-row eligibility check.  The converse
fails (see the counterexample): the eligibility check accepts as soon as a
single sampled value parses as a number. -/
theorem c5_numeric_implies_eligible (isDate : Value → Bool) (data : List Row) (column : String)
    (hlen : data.length ≤ 50)
    (hnum : inferType isDate data column = "numeric") :
    dashNumericEligible data column = true := by
  rw [inferType_spec] at hnum
  by_cases h0 : (colSample data column).length = 0
  · rw [if_pos h0] at hnum
    exact absurd hnum (by decide)
  · rw [if_neg h0] at hnum
    by_cases h1 : 4 * (colSample data column).length <
        5 * ((colSample data column).filter isNumericValue).length
    · have hpos : 0 < ((colSample data column).filter isNumericValue).length := by omega
      obtain ⟨v, hv⟩ := List.exists_mem_of_length_pos hpos
      rcases List.mem_filter.mp hv with ⟨hvs, hvb⟩
      rcases List.mem_filter.mp hvs with ⟨hvm, hkeep⟩
      rcases List.mem_map.mp hvm with ⟨row, hrow, hrg⟩
      have hrow50 : row ∈ data.take 50 := by
        rw [List.take_of_length_le hlen]
        rw [List.take_of_length_le (le_trans hlen (by norm_num))] at hrow
        exact hrow
      have hne : rowGet row column ≠ Value.vStr "" := by
        rw [hrg]
        intro hcon
        rw [hcon] at hkeep
        exact absurd hkeep (by decide)
      unfold dashNumericEligible
      rw [List.any_eq_true]
      refine ⟨row, hrow50, ?_⟩
      rw [Bool.and_eq_true]
      constructor
      · rw [hrg]
        exact hvb
      · exact decide_eq_true hne
    · rw [if_neg h1] at hnum
      by_cases h2 : 4 * (colSample data column).length <
          5 * ((colSample data column).filter isDate).length
      · rw [if_pos h2] at hnum
        exact absurd hnum (by decide)
      · rw [if_neg h2] at hnum
        exact absurd hnum (by decide)

/-- C5 witness: a one-row all-numeric column is classified `numeric` and is
accepted by the dashboard check. -/
theorem c5_witness : dashNumericEligible [[("c", Value.vStr "7")]] "c" = true :=
  c5_numeric_implies_eligible (fun _ => false) [[("c", Value.vStr "7")]] "c"
    (by decide) (by with_unfolding_all rfl)

/-- First-inserted record of the C6 tie pair. -/
def fdTieA : FileData :=
  { id := "a", name := "A", type := FType.csv, size := 0, uploadedAt := 100,
    data := [], columns := [], rowCount := 0, preview := [] }

/-- Second-inserted record of the C6 tie pair, same `uploadedAt`. -/
def fdTieB : FileData :=
  { id := "b", name := "B", type := FType.csv, size := 0, uploadedAt := 100,
    data := [], columns := [], rowCount := 0, preview := [] }

/-- Store with the two tied records, `fdTieA` inserted before `fdTieB`. -/
def stTie : Store := { records := [("a", fdTieA), ("b", fdTieB)], persisted := [] }

/-- C6 counterexample: on equal `uploadedAt` timestamps the stable
JavaScript sort keeps insertion order, so the *earlier*-inserted record
comes first — `getFiles` returns `[fdTieA, fdTieB]`, not the claimed
more-recently-inserted-first order `[fdTieB, fdTieA]`. -/
theorem c6_counterexample :
    getFiles stTie = [fdTieA, fdTieB] ∧
    fdTieA.uploadedAt = fdTieB.uploadedAt ∧ fdTieA ≠ fdTieB :=
  of_decide_eq_true (by with_unfolding_all rfl)

/-- C6 amended: `getFiles` returns the stored records sorted
newest-`uploadedAt`-first, as a permutation of the store's entries, with
ties broken by insertion order *earlier*-inserted first (the per-timestamp
subsequence equals the insertion-order subsequence); the ordering is a pure
function of the store state, hence deterministic across repeated calls. -/
theorem c6_getFiles_order (st : Store) :
    List.Sorted fileOrd (getFiles st) ∧
    (getFiles st).Perm (st.records.map Prod.snd) ∧
    ∀ t, (getFiles st).filter (fun f => decide (f.uploadedAt = t)) =
      (st.records.map Prod.snd).filter (fun f => decide (f.uploadedAt = t)) :=
  ⟨List.sorted_insertionSort fileOrd _, List.perm_insertionSort fileOrd _,
    fun t => filter_time_insertionSort t _⟩

/-- An upload either leaves the store untouched or returns a record: the
only path that modifies the store is the successful one. -/
theorem uploadFile_store_cases (newId : String) (now : Nat) (f : UFile) (st : Store) :
    (uploadFile newId now f st).2 = st ∨
      ∃ fd, (uploadFile newId now f st).1 = Except.ok fd := by
  unfold uploadFile
  split
  · exact Or.inl rfl
  · split
    · exact Or.inl rfl
    · exact Or.inr ⟨_, rfl⟩

/-- C7: every failing upload (unsupported extension or any parse failure)
is local to the call — the store, both its live records and its persisted
serialization, is returned exactly as it was. -/
theorem c7_upload_error_frame (newId : String) (now : Nat) (f : UFile) (st : Store)
    (e : UploadErr) (h : (uploadFile newId now f st).1 = Except.error e) :
    (uploadFile newId now f st).2 = st := by
  rcases uploadFile_store_cases newId now f st with h2 | ⟨fd, h2⟩
  · exact h2
  · rw [h2] at h
    exact Except.noConfusion h

/-- C7 witness: uploading `report.pdf` fails with the unsupported-type
error and leaves a non-empty store untouched. -/
theorem c7_witness :
    (uploadFile "w" 3 { name := "report.pdf", size := 5, content := FileContent.csvLines [] }
        stTie).1 = Except.error UploadErr.unsupportedFileType ∧
    (uploadFile "w" 3 { name := "report.pdf", size := 5, content := FileContent.csvLines [] }
        stTie).2 = stTie :=
  ⟨rfl, c7_upload_error_frame "w" 3 _ stTie UploadErr.unsupportedFileType rfl⟩

/-- C8 counterexample: a one-column sheet whose single data cell is the
number `0` — a present positional cell — still gets the empty-string
filler, because `row[index] || ''` replaces every *falsy* cell, not only
missing ones. -/
theorem c8_counterexample :
    parseXLSX [[[Value.vStr "a"], [Value.vNum 0]]] =
      Except.ok { data := [[("a", Value.vStr "")]], columns := ["a"], rowCount := 1,
                  preview := [[("a", Value.vStr "")]] } ∧
    Value.vNum 0 ≠ Value.vStr "" :=
  of_decide_eq_true (by with_unfolding_all rfl)

/-- Positional shape of the zipped record, with the running index made
explicit. -/
theorem xlsxRecordAux_getD (row : List Value) (headers : List String) (i j : Nat)
    (h : j < headers.length) :
    (xlsxRecordAux row i headers).getD j ("", Value.vUndefined) =
      (headers.getD j "", jsOr (row.getD (i + j) Value.vUndefined) (Value.vStr "")) := by
  induction headers generalizing i j with
  | nil => simp at h
  | cons hd tl ih =>
    cases j with
    | zero => simp [xlsxRecordAux]
    | succ j2 =>
      have h2 : j2 < tl.length := by simpa using h
      simp only [xlsxRecordAux, List.getD_cons_succ]
      rw [ih (i + 1) j2 h2]
      have harith : i + 1 + j2 = i + (j2 + 1) := by omega
      rw [harith]

/-- C8 amended: spreadsheet rows are zipped positionally against the
header, but position `i` of the record receives the source cell's value
only when that cell is present *and truthy*; a missing or falsy cell
(numeric `0`, empty string, `false`, `null`, `undefined`) is filled with
the empty string. -/
theorem c8_xlsx_positional (headers : List String) (row : List Value) (i : Nat)
    (h : i < headers.length) :
    (xlsxRecord headers row).getD i ("", Value.vUndefined) =
      (headers.getD i "",
        if truthy (row.getD i Value.vUndefined) then row.getD i Value.vUndefined
        else Value.vStr "") := by
  have hx := xlsxRecordAux_getD row headers 0 i h
  simpa [jsOr] using hx

/-- C8 witness: the zipped record at position 0 of a one-column header. -/
theorem c8_witness :
    (xlsxRecord ["a"] [Value.vNum 0]).getD 0 ("", Value.vUndefined) =
      ("a", if truthy (([Value.vNum 0] : List Value).getD 0 Value.vUndefined)
            then ([Value.vNum 0] : List Value).getD 0 Value.vUndefined
            else Value.vStr "") :=
  c8_xlsx_positional ["a"] [Value.vNum 0] 0 (by decide)

/-- C9: deleting an id that is not in the store returns `false` and leaves
the state — both the in-memory record map and the persisted serialization —
exactly unchanged, because `saveFilesToStorage` runs only when an entry was
actually removed. -/
theorem c9_delete_absent (id : String) (st : Store)
    (h : st.records.any (fun p => p.1 == id) = false) :
    deleteFile id st = (false, st) := by
  simp [deleteFile, h]

/-- C9 witness: deleting the unknown id `zz` from a two-record store. -/
theorem c9_witness :
    stTie.records.any (fun p => p.1 == "zz") = false ∧
    deleteFile "zz" stTie = (false, stTie) :=
  ⟨rfl, c9_delete_absent "zz" stTie rfl⟩

/-- C10: a successful upload creates a record satisfying
`rowCount = data.length` and `preview = data.take 10`, and the store
operations preserve it: upload keeps all stored records valid, delete only
removes records, `getFile` returns a stored record verbatim, and
`searchInFile` returns a sublist of the stored record's own rows (no record
is ever mutated — all query operations are read-only by construction). -/
theorem c10_record_invariant :
    (∀ newId now f st fd st2, uploadFile newId now f st = (Except.ok fd, st2) →
        recordOk fd ∧ (storeOk st → storeOk st2)) ∧
    (∀ id st, storeOk st → storeOk (deleteFile id st).2) ∧
    (∀ st id fd, storeOk st → getFile st id = some fd → recordOk fd) ∧
    (∀ st id q fd, mapGet st.records id = some fd →
        (searchInFile st id q).Sublist fd.data) := by
  refine ⟨?_, ?_, ?_, ?_⟩
  · intro newId now f st fd st2 h
    unfold uploadFile at h
    split at h
    · simp at h
    · rename_i ft hft
      split at h
      · simp at h
      · rename_i pd hp
        simp only [Prod.mk.injEq, Except.ok.injEq] at h
        obtain ⟨hfd, hst2⟩ := h
        obtain ⟨hrc, hpv⟩ := parseByType_ok_invariant ft f.content pd hp
        constructor
        · rw [← hfd]
          exact ⟨hrc, hpv⟩
        · intro hok p hp2
          rw [← hst2] at hp2
          rcases mem_mapSet _ _ _ p hp2 with hold | hnew
          · exact hok p hold
          · rw [hnew]
            exact ⟨hrc, hpv⟩
  · intro id st hok
    unfold deleteFile
    split
    · intro p hp2
      exact hok p (List.mem_of_mem_filter hp2)
    · exact hok
  · intro st id fd hok h
    exact hok (id, fd) (mem_of_mapGet st.records id fd h)
  · intro st id q fd h
    unfold searchInFile
    rw [h]
    exact List.filter_sublist _

/-- C10 witness: the concrete header-only upload's record satisfies the
invariant, the resulting one-record store is fully valid, and deleting an
unknown id keeps the Scenario A store valid. -/
theorem c10_witness :
    recordOk c3Record ∧
    storeOk { records := [("id1", c3Record)], persisted := [("id1", c3Record)] } ∧
    storeOk (deleteFile "zz" c4Store).2 := by
  have h1 := c10_record_invariant.1 "id1" 5 c3File { records := [], persisted := [] } c3Record
    { records := [("id1", c3Record)], persisted := [("id1", c3Record)] }
    (by with_unfolding_all rfl)
  have hok4 : storeOk c4Store := by
    intro p hp
    rcases List.mem_cons.mp hp with h | h
    · rw [h]
      exact ⟨rfl, rfl⟩
    · exact absurd h (List.not_mem_nil p)
  exact ⟨h1.1, h1.2 (fun p hp => absurd hp (List.not_mem_nil p)),
    c10_record_invariant.2.1 "zz" c4Store hok4⟩

end FileSvc
